import Mathlib

/-
Verification of the passive bistatic radar target-parameter calculation
(auto_param_cal notebook).  The notebook converts geodetic coordinates to
ECEF Cartesian coordinates, computes the bistatic distances, a 3D target
velocity vector, the bistatic Doppler frequency and (via an external
library) the bearing.  The geodesy library calls (ECEF forward transform,
destination point) are external collaborators; they enter the development
as function parameters, and the error-handling components described only
by the design document are modelled from its text.
-/

namespace AutoParamCal

/-- A 3D Cartesian (ECEF) point or vector, as the numpy arrays of the
notebook. -/
structure Vec3 where
  x : ℝ
  y : ℝ
  z : ℝ

namespace Vec3

/-- Componentwise subtraction, as numpy `a - b`. -/
def sub (a b : Vec3) : Vec3 := ⟨a.x - b.x, a.y - b.y, a.z - b.z⟩

/-- Componentwise addition, as numpy `a + b`. -/
def add (a b : Vec3) : Vec3 := ⟨a.x + b.x, a.y + b.y, a.z + b.z⟩

/-- Scalar multiplication, as numpy `c * a`. -/
def smul (c : ℝ) (a : Vec3) : Vec3 := ⟨c * a.x, c * a.y, c * a.z⟩

/-- Componentwise division by a scalar, as numpy `a / c`. -/
noncomputable def sdiv (a : Vec3) (c : ℝ) : Vec3 := ⟨a.x / c, a.y / c, a.z / c⟩

/-- Dot product, as `np.sum(a * b)`. -/
def dot (a b : Vec3) : ℝ := a.x * b.x + a.y * b.y + a.z * b.z

/-- The zero vector. -/
def zero : Vec3 := ⟨0, 0, 0⟩

/-- The norm exactly as the notebook writes it:
`np.sqrt(np.sum(np.abs(v) ** 2))`. -/
noncomputable def absNorm (v : Vec3) : ℝ :=
  Real.sqrt (|v.x| ^ 2 + |v.y| ^ 2 + |v.z| ^ 2)

/-- The Euclidean L2 norm as the specification words it: the square root
of the sum of the squared components. -/
noncomputable def euclidNorm (v : Vec3) : ℝ :=
  Real.sqrt (v.x ^ 2 + v.y ^ 2 + v.z ^ 2)

theorem absNorm_eq_euclidNorm (v : Vec3) : absNorm v = euclidNorm v := by
  simp [absNorm, euclidNorm, sq_abs]

theorem sub_eq_zero_iff (a b : Vec3) : sub a b = zero ↔ a = b := by
  cases a
  cases b
  simp [sub, zero, Vec3.mk.injEq, sub_eq_zero]

end Vec3

/-- Baseline distance, notebook cell: `L = np.sqrt(np.sum(np.abs(radar_ecef - ioo_ecef) ** 2))`. -/
noncomputable def L (ioo_ecef radar_ecef : Vec3) : ℝ :=
  Vec3.absNorm (Vec3.sub radar_ecef ioo_ecef)

/-- Target-to-IoO distance, notebook cell: `Rt = np.sqrt(np.sum(np.abs(target_ecef - ioo_ecef) ** 2))`. -/
noncomputable def Rt (ioo_ecef target_ecef : Vec3) : ℝ :=
  Vec3.absNorm (Vec3.sub target_ecef ioo_ecef)

/-- Target-to-radar distance, notebook cell: `Rr = np.sqrt(np.sum(np.abs(target_ecef - radar_ecef) ** 2))`. -/
noncomputable def Rr (radar_ecef target_ecef : Vec3) : ℝ :=
  Vec3.absNorm (Vec3.sub target_ecef radar_ecef)

/-- Bistatic distance, notebook cell: `Rb = Rt + Rr - L`. -/
noncomputable def Rb (ioo_ecef radar_ecef target_ecef : Vec3) : ℝ :=
  Rt ioo_ecef target_ecef + Rr radar_ecef target_ecef - L ioo_ecef radar_ecef

/-- Claim C1: the geometry solver returns `baseline = |receiver - illuminator|`,
`illuminatorToTarget = |target - illuminator|`, `targetToReceiver = |target - receiver|`
as Euclidean L2 norms of the pairwise differences, and
`bistaticRange = illuminatorToTarget + targetToReceiver - baseline`. -/
theorem bistatic_geometry_solver_correct (i r t : Vec3) :
    L i r = Vec3.euclidNorm (Vec3.sub r i) ∧
    Rt i t = Vec3.euclidNorm (Vec3.sub t i) ∧
    Rr r t = Vec3.euclidNorm (Vec3.sub t r) ∧
    Rb i r t = Rt i t + Rr r t - L i r := by
  refine ⟨?_, ?_, ?_, rfl⟩ <;> exact Vec3.absNorm_eq_euclidNorm _

/-- Target-to-IoO unit line-of-sight vector, notebook cell:
`target_to_ioo_vector = (target_ecef - ioo_ecef) / Rt`. -/
noncomputable def target_to_ioo_vector (target_ecef ioo_ecef : Vec3) (dRt : ℝ) : Vec3 :=
  Vec3.sdiv (Vec3.sub target_ecef ioo_ecef) dRt

/-- Target-to-radar unit line-of-sight vector, notebook cell:
`target_to_radar_vector = (target_ecef - radar_ecef) / Rr`. -/
noncomputable def target_to_radar_vector (target_ecef radar_ecef : Vec3) (dRr : ℝ) : Vec3 :=
  Vec3.sdiv (Vec3.sub target_ecef radar_ecef) dRr

/-- The bistatic Doppler frequency, notebook cell:
`fD = -1 * ((np.sum(speed_vector * target_to_ioo_vector)) + (np.sum(speed_vector * target_to_radar_vector))) / wavelength`. -/
noncomputable def fD (speed_vec target_ecef ioo_ecef radar_ecef : Vec3)
    (dRt dRr wavelength : ℝ) : ℝ :=
  -1 * (Vec3.dot speed_vec (target_to_ioo_vector target_ecef ioo_ecef dRt)
      + Vec3.dot speed_vec (target_to_radar_vector target_ecef radar_ecef dRr)) / wavelength

/-- Claim C2: the Doppler calculator returns exactly
`-((v . (t - i) / d1) + (v . (t - r) / d2)) / lambda`. -/
theorem doppler_formula_correct (v t i r : Vec3) (d1 d2 lam : ℝ)
    (h1 : 0 < d1) (h2 : 0 < d2) (hlam : 0 < lam) :
    fD v t i r d1 d2 lam =
      -((Vec3.dot v (Vec3.sub t i) / d1 + Vec3.dot v (Vec3.sub t r) / d2)) / lam := by
  unfold fD target_to_ioo_vector target_to_radar_vector
  simp only [Vec3.dot, Vec3.sdiv, Vec3.sub]
  ring

/-- Witness for claim C2 at a concrete non-degenerate input. -/
theorem doppler_formula_correct_witness :
    (0 : ℝ) < 1 ∧ (0 : ℝ) < 1 ∧ (0 : ℝ) < 1 ∧
    fD ⟨1, 2, 3⟩ ⟨1, 0, 0⟩ ⟨0, 0, 0⟩ ⟨0, 1, 0⟩ 1 1 1 =
      -((Vec3.dot ⟨1, 2, 3⟩ (Vec3.sub ⟨1, 0, 0⟩ ⟨0, 0, 0⟩) / 1
        + Vec3.dot ⟨1, 2, 3⟩ (Vec3.sub ⟨1, 0, 0⟩ ⟨0, 1, 0⟩) / 1)) / 1 :=
  ⟨by norm_num, by norm_num, by norm_num,
    doppler_formula_correct ⟨1, 2, 3⟩ ⟨1, 0, 0⟩ ⟨0, 0, 0⟩ ⟨0, 1, 0⟩ 1 1 1
      (by norm_num) (by norm_num) (by norm_num)⟩

theorem absNorm_pos (v : Vec3) (h : v ≠ Vec3.zero) : 0 < Vec3.absNorm v := by
  rcases v with ⟨a, b, c⟩
  have hsum : 0 < |a| ^ 2 + |b| ^ 2 + |c| ^ 2 := by
    rcases lt_or_eq_of_le (by positivity : (0 : ℝ) ≤ |a| ^ 2 + |b| ^ 2 + |c| ^ 2) with hlt | heq
    · exact hlt
    · exfalso
      apply h
      have ha2 : a ^ 2 = 0 := by
        nlinarith [sq_abs a, sq_abs b, sq_abs c, sq_nonneg a, sq_nonneg b, sq_nonneg c]
      have hb2 : b ^ 2 = 0 := by
        nlinarith [sq_abs a, sq_abs b, sq_abs c, sq_nonneg a, sq_nonneg b, sq_nonneg c]
      have hc2 : c ^ 2 = 0 := by
        nlinarith [sq_abs a, sq_abs b, sq_abs c, sq_nonneg a, sq_nonneg b, sq_nonneg c]
      have ha := sq_eq_zero_iff.mp ha2
      have hb := sq_eq_zero_iff.mp hb2
      have hc := sq_eq_zero_iff.mp hc2
      simp [Vec3.zero, ha, hb, hc]
  exact Real.sqrt_pos.mpr hsum

theorem euclidNorm_smul_sdiv (s : ℝ) (d : Vec3) (hs : 0 ≤ s) (hd : d ≠ Vec3.zero) :
    Vec3.euclidNorm (Vec3.smul s (Vec3.sdiv d (Vec3.absNorm d))) = s := by
  have hn : 0 < Vec3.absNorm d := absNorm_pos d hd
  have hne : Vec3.absNorm d ≠ 0 := hn.ne'
  have hS : Vec3.absNorm d = Real.sqrt (d.x ^ 2 + d.y ^ 2 + d.z ^ 2) :=
    Vec3.absNorm_eq_euclidNorm d
  have hSpos : 0 < d.x ^ 2 + d.y ^ 2 + d.z ^ 2 := by
    rw [hS] at hn
    exact Real.sqrt_pos.mp hn
  have hsq : Vec3.absNorm d ^ 2 = d.x ^ 2 + d.y ^ 2 + d.z ^ 2 := by
    rw [hS]
    exact Real.sq_sqrt hSpos.le
  simp only [Vec3.euclidNorm, Vec3.smul, Vec3.sdiv]
  have harg : (s * (d.x / Vec3.absNorm d)) ^ 2 + (s * (d.y / Vec3.absNorm d)) ^ 2
      + (s * (d.z / Vec3.absNorm d)) ^ 2 = s ^ 2 := by
    field_simp
    linear_combination (-(s ^ 2)) * hsq
  rw [harg, Real.sqrt_sq hs]

/-- A geodetic latitude/longitude pair, as pygeodesy's `LatLon` objects. -/
structure LatLon where
  lat : ℝ
  lon : ℝ

/-- The notebook's speed-vector computation (cell 5), parametrized by the two
external geodesy operations it calls: `destination` (the pygeodesy
`LatLon.destination` probe point a given distance away along a heading) and
`forward` (the geodetic-to-ECEF conversion at a given elevation).  The code is
`speed_vector = probe_ecef - target_ecef`, then `/= np.sqrt(np.sum(np.abs(.)**2))`,
then `*= target_speed`, with the probe taken 1 m away along `target_dir` and
both conversions done at `target_ele`. -/
noncomputable def speed_vector (destination : LatLon → ℝ → ℝ → LatLon)
    (forward : LatLon → ℝ → Vec3) (target_latlon : LatLon)
    (target_ele target_speed target_dir : ℝ) : Vec3 :=
  Vec3.smul target_speed
    (Vec3.sdiv
      (Vec3.sub (forward (destination target_latlon 1 target_dir) target_ele)
        (forward target_latlon target_ele))
      (Vec3.absNorm
        (Vec3.sub (forward (destination target_latlon 1 target_dir) target_ele)
          (forward target_latlon target_ele))))

/-- Modelled from the spec: the production `VelocityVectorEstimator.estimate`
with its zero-speed guard ("if speed is 0, return the zero vector without
invoking the normalize step"); the guard is absent from the straight-line
notebook script under src.  The non-zero branch is the notebook's own
probe / convert / subtract / normalize / scale pipeline. -/
noncomputable def estimate (destination : LatLon → ℝ → ℝ → LatLon)
    (forward : LatLon → ℝ → Vec3) (target_latlon : LatLon)
    (target_ele target_speed target_dir : ℝ) : Vec3 :=
  if target_speed = 0 then Vec3.zero
  else speed_vector destination forward target_latlon target_ele target_speed target_dir

/-- Claim C3: if the target speed is 0 the velocity estimator returns the zero
vector through its guard branch (and the notebook's branchless code agrees),
and the resulting Doppler frequency is 0 regardless of heading and scene
geometry. -/
theorem zero_speed_zero_doppler (destination : LatLon → ℝ → ℝ → LatLon)
    (forward : LatLon → ℝ → Vec3) (pos : LatLon) (ele speed heading : ℝ)
    (t i r : Vec3) (d1 d2 lam : ℝ) (h : speed = 0) :
    estimate destination forward pos ele speed heading = Vec3.zero ∧
    speed_vector destination forward pos ele speed heading = Vec3.zero ∧
    fD (estimate destination forward pos ele speed heading) t i r d1 d2 lam = 0 := by
  subst h
  have he : estimate destination forward pos ele 0 heading = Vec3.zero := by
    unfold estimate
    rw [if_pos rfl]
  have hsv : speed_vector destination forward pos ele 0 heading = Vec3.zero := by
    unfold speed_vector
    simp [Vec3.smul, Vec3.zero]
  refine ⟨he, hsv, ?_⟩
  rw [he]
  unfold fD
  simp [Vec3.dot, Vec3.zero, target_to_ioo_vector, target_to_radar_vector]

/-- A concrete stand-in for the external destination-point operation, used by
witnesses. -/
def destWitness : LatLon → ℝ → ℝ → LatLon := fun p d _ => ⟨p.lat + d, p.lon⟩

/-- A concrete stand-in for the external geodetic-to-ECEF conversion, used by
witnesses. -/
def forwardWitness : LatLon → ℝ → Vec3 := fun p e => ⟨p.lat, p.lon, e⟩

/-- Witness for claim C3 at a concrete zero-speed input. -/
theorem zero_speed_zero_doppler_witness :
    (0 : ℝ) = 0 ∧
    (estimate destWitness forwardWitness ⟨0, 0⟩ 0 0 0 = Vec3.zero ∧
      speed_vector destWitness forwardWitness ⟨0, 0⟩ 0 0 0 = Vec3.zero ∧
      fD (estimate destWitness forwardWitness ⟨0, 0⟩ 0 0 0)
        Vec3.zero Vec3.zero Vec3.zero 1 1 1 = 0) :=
  ⟨rfl, zero_speed_zero_doppler destWitness forwardWitness ⟨0, 0⟩ 0 0 0
    Vec3.zero Vec3.zero Vec3.zero 1 1 1 rfl⟩

/-- Claim C5: with positive speed the estimator is exactly the notebook's
probe / convert / subtract / normalize / scale pipeline, and whenever the two
Cartesian points differ the returned vector has Euclidean norm exactly the
target speed. -/
theorem speed_vector_norm_eq_speed (destination : LatLon → ℝ → ℝ → LatLon)
    (forward : LatLon → ℝ → Vec3) (pos : LatLon) (ele speed heading : ℝ)
    (hs : 0 < speed)
    (hne : forward (destination pos 1 heading) ele ≠ forward pos ele) :
    estimate destination forward pos ele speed heading =
      speed_vector destination forward pos ele speed heading ∧
    Vec3.euclidNorm (speed_vector destination forward pos ele speed heading) = speed := by
  constructor
  · unfold estimate
    rw [if_neg hs.ne']
  · unfold speed_vector
    have hd : Vec3.sub (forward (destination pos 1 heading) ele) (forward pos ele)
        ≠ Vec3.zero := by
      rw [Ne, Vec3.sub_eq_zero_iff]
      exact hne
    exact euclidNorm_smul_sdiv speed _ hs.le hd

/-- Witness for claim C5 at a concrete input with distinct Cartesian points. -/
theorem speed_vector_norm_eq_speed_witness :
    (0 : ℝ) < 10 ∧
    forwardWitness (destWitness ⟨0, 0⟩ 1 0) 0 ≠ forwardWitness ⟨0, 0⟩ 0 ∧
    (estimate destWitness forwardWitness ⟨0, 0⟩ 0 10 0 =
        speed_vector destWitness forwardWitness ⟨0, 0⟩ 0 10 0 ∧
      Vec3.euclidNorm (speed_vector destWitness forwardWitness ⟨0, 0⟩ 0 10 0) = 10) := by
  have hne : forwardWitness (destWitness ⟨0, 0⟩ 1 0) 0 ≠ forwardWitness ⟨0, 0⟩ 0 := by
    simp only [destWitness, forwardWitness, ne_eq, Vec3.mk.injEq]
    norm_num
  exact ⟨by norm_num, hne,
    speed_vector_norm_eq_speed destWitness forwardWitness ⟨0, 0⟩ 0 10 0 (by norm_num) hne⟩

/-- Modelled from the spec: the typed error kinds of the error-handling design
(`InvalidCoordinate`, `DegenerateGeometry`, `InvalidParameter`); no error
handling exists in the straight-line notebook script under src. -/
inductive RadarError where
  | InvalidCoordinate : RadarError
  | DegenerateGeometry : RadarError
  | InvalidParameter : RadarError

/-- Modelled from the spec: the production `DopplerCalculator.computeDoppler`,
which fails with `DegenerateGeometry` when `illuminatorToTargetDist == 0` or
`targetToReceiverDist == 0` and otherwise computes the notebook's Doppler
frequency. -/
noncomputable def computeDoppler (v t i r : Vec3) (d1 d2 lam : ℝ) : Except RadarError ℝ :=
  if d1 = 0 ∨ d2 = 0 then Except.error RadarError.DegenerateGeometry
  else Except.ok (fD v t i r d1 d2 lam)

/-- Claim C4: when the target coincides with the illuminator or the receiver
(either distance is zero) the Doppler computation fails with the typed
`DegenerateGeometry` error and returns no numeric value; in particular the
fully co-located monostatic case, whose pipeline distances are both zero,
fails the same way. -/
theorem doppler_degenerate_error (v t i r : Vec3) (d1 d2 lam : ℝ) (p : Vec3)
    (h : d1 = 0 ∨ d2 = 0) :
    computeDoppler v t i r d1 d2 lam = Except.error RadarError.DegenerateGeometry ∧
    (∀ y : ℝ, computeDoppler v t i r d1 d2 lam ≠ Except.ok y) ∧
    computeDoppler v p p p ( Rt p p) ( Rr p p) lam =
      Except.error RadarError.DegenerateGeometry := by
  have herr : computeDoppler v t i r d1 d2 lam =
      Except.error RadarError.DegenerateGeometry := by
    unfold computeDoppler
    rw [if_pos h]
  have hRt : Rt p p = 0 := by
    simp [ Rt, Vec3.absNorm, Vec3.sub, Real.sqrt_zero]
  refine ⟨herr, ?_, ?_⟩
  · intro y
    rw [herr]
    intro hcontra
    exact Except.noConfusion hcontra
  · unfold computeDoppler
    rw [if_pos (Or.inl hRt)]

/-- Witness for claim C4 at a concrete degenerate input. -/
theorem doppler_degenerate_error_witness :
    ((0 : ℝ) = 0 ∨ (1 : ℝ) = 0) ∧
    (computeDoppler Vec3.zero Vec3.zero Vec3.zero Vec3.zero 0 1 1 =
        Except.error RadarError.DegenerateGeometry ∧
      (∀ y : ℝ, computeDoppler Vec3.zero Vec3.zero Vec3.zero Vec3.zero 0 1 1 ≠
        Except.ok y) ∧
      computeDoppler Vec3.zero ⟨1, 2, 3⟩ ⟨1, 2, 3⟩ ⟨1, 2, 3⟩
          ( Rt ⟨1, 2, 3⟩ ⟨1, 2, 3⟩) ( Rr ⟨1, 2, 3⟩ ⟨1, 2, 3⟩) 1 =
        Except.error RadarError.DegenerateGeometry) :=
  ⟨Or.inl rfl, doppler_degenerate_error Vec3.zero Vec3.zero Vec3.zero Vec3.zero 0 1 1
    ⟨1, 2, 3⟩ (Or.inl rfl)⟩

/-- Claim C10: the Doppler frequency is inversely proportional to the
wavelength: scaling the wavelength by a factor k divides the result by k. -/
theorem doppler_wavelength_scaling (v t i r : Vec3) (d1 d2 lam k : ℝ)
    (hk : 0 < k) :
    fD v t i r d1 d2 (k * lam) = fD v t i r d1 d2 lam / k := by
  unfold fD
  rw [div_div, mul_comm lam k]

/-- Witness for claim C10 at a concrete scale factor. -/
theorem doppler_wavelength_scaling_witness :
    (0 : ℝ) < 2 ∧
    fD ⟨1, 0, 0⟩ ⟨1, 1, 1⟩ ⟨0, 0, 0⟩ ⟨2, 0, 0⟩ 1 1 ((2 : ℝ) * 1) =
      fD ⟨1, 0, 0⟩ ⟨1, 1, 1⟩ ⟨0, 0, 0⟩ ⟨2, 0, 0⟩ 1 1 1 / 2 :=
  ⟨by norm_num,
    doppler_wavelength_scaling ⟨1, 0, 0⟩ ⟨1, 1, 1⟩ ⟨0, 0, 0⟩ ⟨2, 0, 0⟩ 1 1 1 2
      (by norm_num)⟩

/-- The geodetic reference surfaces that appear in the notebook. -/
inductive Datum where
  | sphere : Datum
  | wgs84 : Datum

/-- The reference surface of the notebook's ECEF converter, from
`ecef_converter = ecef.EcefYou(Datums.Sphere)`. -/
def ecef_converter_datum : Datum := Datum.sphere

/-- The reference surface of the notebook's destination-point computation,
from `from pygeodesy.ellipsoidalVincenty import LatLon`: `ellipsoidalVincenty`
operates on the `LatLon` object's datum, which defaults to WGS84. -/
def destination_datum : Datum := Datum.wgs84

/-- Claim C8 fails on the code: the probe point fed to the ECEF converter is
derived with the WGS84 Vincenty destination computation while every ECEF
conversion uses the spherical datum, so one calculation mixes two reference
surfaces. -/
theorem mixed_reference_surfaces : ecef_converter_datum ≠ destination_datum :=
  fun h => nomatch h

/-- Two-argument arctangent with the usual `atan2(y, x)` convention, realized
as the argument of the complex number `x + y*I`, so its value lies in
`(-pi, pi]`. -/
noncomputable def atan2 (y x : ℝ) : ℝ := Complex.arg ⟨x, y⟩

/-- Degrees to radians. -/
noncomputable def deg2rad (d : ℝ) : ℝ := d * Real.pi / 180

/-- Radians to degrees. -/
noncomputable def rad2deg (r : ℝ) : ℝ := r * 180 / Real.pi

/-- Reduction modulo 360 into `[0, 360)`. -/
noncomputable def mod360 (a : ℝ) : ℝ := a - 360 * (Int.floor (a / 360) : ℝ)

theorem mod360_nonneg (a : ℝ) : 0 ≤ mod360 a := by
  have h1 : (Int.floor (a / 360) : ℝ) ≤ a / 360 := Int.floor_le _
  have e : 360 * (a / 360) = a := by ring
  unfold mod360
  nlinarith

theorem mod360_lt (a : ℝ) : mod360 a < 360 := by
  have h2 : a / 360 < Int.floor (a / 360) + 1 := Int.lt_floor_add_one _
  have e : 360 * (a / 360) = a := by ring
  unfold mod360
  nlinarith

/-- Modelled from the spec: the great-circle initial-bearing angle of the
bearing formula quoted in the notebook (cell 8); the function itself lives in
the external pyAPRiL library:
`theta = atan2(cos(lat1)*sin(lat2) - sin(lat1)*cos(lat2)*cos(lon2 - lon1), sin(lon2 - lon1)*cos(lat2))`
with point 1 the receiver and point 2 the target, all angles in radians. -/
noncomputable def theta (radar target : LatLon) : ℝ :=
  atan2
    (Real.cos (deg2rad radar.lat) * Real.sin (deg2rad target.lat)
      - Real.sin (deg2rad radar.lat) * Real.cos (deg2rad target.lat)
        * Real.cos (deg2rad (target.lon - radar.lon)))
    (Real.sin (deg2rad (target.lon - radar.lon)) * Real.cos (deg2rad target.lat))

/-- Modelled from the spec: the bearing angle in degrees normalized to
`[0, 360)` by adding 360 if negative. -/
noncomputable def theta_norm (radar target : LatLon) : ℝ :=
  if rad2deg (theta radar target) < 0 then rad2deg (theta radar target) + 360
  else rad2deg (theta radar target)

/-- Modelled from the spec: the production `BearingCalculator.computeBearing`,
which subtracts the receiver's boresight heading modulo 360 from the
normalized great-circle initial bearing. -/
noncomputable def computeBearing (radar target : LatLon) (boresight : ℝ) : ℝ :=
  mod360 (theta_norm radar target - boresight)

theorem theta_norm_mem (radar target : LatLon) :
    0 ≤ theta_norm radar target ∧ theta_norm radar target < 360 := by
  have hpi : 0 < Real.pi := Real.pi_pos
  set a : ℝ := theta radar target with ha
  have harg1 : -Real.pi < a := Complex.neg_pi_lt_arg _
  have harg2 : a ≤ Real.pi := Complex.arg_le_pi _
  have hdeg1 : -180 < rad2deg a := by
    unfold rad2deg
    rw [lt_div_iff hpi]
    nlinarith
  have hdeg2 : rad2deg a ≤ 180 := by
    unfold rad2deg
    rw [div_le_iff hpi]
    nlinarith
  unfold theta_norm
  rw [← ha]
  by_cases hneg : rad2deg a < 0
  · rw [if_pos hneg]
    constructor <;> nlinarith
  · rw [if_neg hneg]
    push_neg at hneg
    constructor <;> nlinarith

/-- Claim C6: for distinct receiver and target positions, the bearing is the
great-circle initial-bearing angle, normalized into `[0, 360)` by adding 360
when negative, with the boresight heading then subtracted modulo 360; the
result lies in `[0, 360)`. -/
theorem computeBearing_range (radar target : LatLon) (boresight : ℝ)
    (h : radar.lat ≠ target.lat ∨ radar.lon ≠ target.lon) :
    (0 ≤ theta_norm radar target ∧ theta_norm radar target < 360) ∧
    computeBearing radar target boresight = mod360 (theta_norm radar target - boresight) ∧
    0 ≤ computeBearing radar target boresight ∧
    computeBearing radar target boresight < 360 :=
  ⟨theta_norm_mem radar target, rfl,
    mod360_nonneg (theta_norm radar target - boresight),
    mod360_lt (theta_norm radar target - boresight)⟩

/-- Witness for claim C6 at a concrete pair of distinct positions. -/
theorem computeBearing_range_witness :
    ((⟨0, 0⟩ : LatLon).lat ≠ (⟨1, 1⟩ : LatLon).lat ∨
      (⟨0, 0⟩ : LatLon).lon ≠ (⟨1, 1⟩ : LatLon).lon) ∧
    ((0 ≤ theta_norm ⟨0, 0⟩ ⟨1, 1⟩ ∧ theta_norm ⟨0, 0⟩ ⟨1, 1⟩ < 360) ∧
      computeBearing ⟨0, 0⟩ ⟨1, 1⟩ 0 = mod360 (theta_norm ⟨0, 0⟩ ⟨1, 1⟩ - 0) ∧
      0 ≤ computeBearing ⟨0, 0⟩ ⟨1, 1⟩ 0 ∧
      computeBearing ⟨0, 0⟩ ⟨1, 1⟩ 0 < 360) :=
  ⟨Or.inl (by norm_num),
    computeBearing_range ⟨0, 0⟩ ⟨1, 1⟩ 0 (Or.inl (by norm_num))⟩

theorem hasDerivAt_dist_line (tx ty tz ix iy iz vx vy vz : ℝ)
    (h : 0 < Real.sqrt ((tx - ix) ^ 2 + (ty - iy) ^ 2 + (tz - iz) ^ 2)) :
    HasDerivAt
      (fun s : ℝ => Real.sqrt ((tx + s * vx - ix) ^ 2 + (ty + s * vy - iy) ^ 2
        + (tz + s * vz - iz) ^ 2))
      ((vx * (tx - ix) + vy * (ty - iy) + vz * (tz - iz)) /
        Real.sqrt ((tx - ix) ^ 2 + (ty - iy) ^ 2 + (tz - iz) ^ 2)) 0 := by
  have hx : HasDerivAt (fun s : ℝ => tx + s * vx - ix) vx 0 := by
    simpa using (((hasDerivAt_id (0 : ℝ)).mul_const vx).const_add tx).sub_const ix
  have hy : HasDerivAt (fun s : ℝ => ty + s * vy - iy) vy 0 := by
    simpa using (((hasDerivAt_id (0 : ℝ)).mul_const vy).const_add ty).sub_const iy
  have hz : HasDerivAt (fun s : ℝ => tz + s * vz - iz) vz 0 := by
    simpa using (((hasDerivAt_id (0 : ℝ)).mul_const vz).const_add tz).sub_const iz
  have hg : HasDerivAt
      (fun s : ℝ => (tx + s * vx - ix) ^ 2 + (ty + s * vy - iy) ^ 2
        + (tz + s * vz - iz) ^ 2)
      (2 * (vx * (tx - ix) + vy * (ty - iy) + vz * (tz - iz))) 0 := by
    have h2 := ((hx.pow 2).add (hy.pow 2)).add (hz.pow 2)
    convert h2 using 1
    push_cast
    ring
  have e : (tx + 0 * vx - ix) ^ 2 + (ty + 0 * vy - iy) ^ 2 + (tz + 0 * vz - iz) ^ 2
      = (tx - ix) ^ 2 + (ty - iy) ^ 2 + (tz - iz) ^ 2 := by
    ring
  have hpos : 0 < (tx - ix) ^ 2 + (ty - iy) ^ 2 + (tz - iz) ^ 2 := Real.sqrt_pos.mp h
  have hS : (tx + 0 * vx - ix) ^ 2 + (ty + 0 * vy - iy) ^ 2 + (tz + 0 * vz - iz) ^ 2
      ≠ 0 := by
    rw [e]
    exact hpos.ne'
  have hsq := hg.sqrt hS
  have e2 : Real.sqrt ((tx + 0 * vx - ix) ^ 2 + (ty + 0 * vy - iy) ^ 2
      + (tz + 0 * vz - iz) ^ 2)
      = Real.sqrt ((tx - ix) ^ 2 + (ty - iy) ^ 2 + (tz - iz) ^ 2) := by
    rw [e]
  have hn : Real.sqrt ((tx - ix) ^ 2 + (ty - iy) ^ 2 + (tz - iz) ^ 2) ≠ 0 := h.ne'
  convert hsq using 1
  rw [e2]
  field_simp
  ring

/-- Claim C7: for a non-degenerate scene the computed Doppler frequency is
positive exactly when the derivative at time 0 of the combined
illuminator-to-target-to-receiver path length along the motion is negative
(closing motion). -/
theorem doppler_sign_iff_closing (v t i r : Vec3) (lam : ℝ)
    (h1 : 0 < Rt i t) (h2 : 0 < Rr r t) (hlam : 0 < lam) :
    (0 < fD v t i r ( Rt i t) ( Rr r t) lam ↔
      deriv (fun s : ℝ =>
        Vec3.euclidNorm (Vec3.sub (Vec3.add t (Vec3.smul s v)) i)
          + Vec3.euclidNorm (Vec3.sub (Vec3.add t (Vec3.smul s v)) r)) 0 < 0) := by
  have e1 : Rt i t = Real.sqrt ((t.x - i.x) ^ 2 + (t.y - i.y) ^ 2 + (t.z - i.z) ^ 2) := by
    simp [ Rt, Vec3.absNorm, Vec3.sub, sq_abs]
  have e2 : Rr r t = Real.sqrt ((t.x - r.x) ^ 2 + (t.y - r.y) ^ 2 + (t.z - r.z) ^ 2) := by
    simp [ Rr, Vec3.absNorm, Vec3.sub, sq_abs]
  have h1x : 0 < Real.sqrt ((t.x - i.x) ^ 2 + (t.y - i.y) ^ 2 + (t.z - i.z) ^ 2) :=
    e1 ▸ h1
  have h2x : 0 < Real.sqrt ((t.x - r.x) ^ 2 + (t.y - r.y) ^ 2 + (t.z - r.z) ^ 2) :=
    e2 ▸ h2
  have H1 : HasDerivAt
      (fun s : ℝ => Vec3.euclidNorm (Vec3.sub (Vec3.add t (Vec3.smul s v)) i))
      ((v.x * (t.x - i.x) + v.y * (t.y - i.y) + v.z * (t.z - i.z)) /
        Real.sqrt ((t.x - i.x) ^ 2 + (t.y - i.y) ^ 2 + (t.z - i.z) ^ 2)) 0 :=
    hasDerivAt_dist_line t.x t.y t.z i.x i.y i.z v.x v.y v.z h1x
  have H2 : HasDerivAt
      (fun s : ℝ => Vec3.euclidNorm (Vec3.sub (Vec3.add t (Vec3.smul s v)) r))
      ((v.x * (t.x - r.x) + v.y * (t.y - r.y) + v.z * (t.z - r.z)) /
        Real.sqrt ((t.x - r.x) ^ 2 + (t.y - r.y) ^ 2 + (t.z - r.z) ^ 2)) 0 :=
    hasDerivAt_dist_line t.x t.y t.z r.x r.y r.z v.x v.y v.z h2x
  have hderiv := (H1.add H2).deriv
  rw [hderiv]
  have efD : fD v t i r ( Rt i t) ( Rr r t) lam =
      -1 * ((v.x * (t.x - i.x) + v.y * (t.y - i.y) + v.z * (t.z - i.z)) /
          Real.sqrt ((t.x - i.x) ^ 2 + (t.y - i.y) ^ 2 + (t.z - i.z) ^ 2)
        + (v.x * (t.x - r.x) + v.y * (t.y - r.y) + v.z * (t.z - r.z)) /
          Real.sqrt ((t.x - r.x) ^ 2 + (t.y - r.y) ^ 2 + (t.z - r.z) ^ 2)) / lam := by
    rw [e1, e2]
    unfold fD target_to_ioo_vector target_to_radar_vector
    simp only [Vec3.dot, Vec3.sdiv, Vec3.sub]
    ring
  rw [efD]
  set S : ℝ :=
    (v.x * (t.x - i.x) + v.y * (t.y - i.y) + v.z * (t.z - i.z)) /
        Real.sqrt ((t.x - i.x) ^ 2 + (t.y - i.y) ^ 2 + (t.z - i.z) ^ 2)
      + (v.x * (t.x - r.x) + v.y * (t.y - r.y) + v.z * (t.z - r.z)) /
        Real.sqrt ((t.x - r.x) ^ 2 + (t.y - r.y) ^ 2 + (t.z - r.z) ^ 2) with hSdef
  constructor
  · intro hpos
    have hx := mul_pos hpos hlam
    have hcancel : -1 * S / lam * lam = -1 * S := by
      field_simp
    rw [hcancel] at hx
    linarith
  · intro hS
    have hnum : 0 < -1 * S := by linarith
    exact div_pos hnum hlam

/-- Witness for claim C7 at a concrete non-degenerate scene. -/
theorem doppler_sign_iff_closing_witness :
    0 < Rt ⟨0, 0, 0⟩ ⟨1, 0, 0⟩ ∧
    0 < Rr ⟨2, 0, 0⟩ ⟨1, 0, 0⟩ ∧
    (0 : ℝ) < 1 ∧
    (0 < fD ⟨1, 2, 3⟩ ⟨1, 0, 0⟩ ⟨0, 0, 0⟩ ⟨2, 0, 0⟩
        ( Rt ⟨0, 0, 0⟩ ⟨1, 0, 0⟩) ( Rr ⟨2, 0, 0⟩ ⟨1, 0, 0⟩) 1 ↔
      deriv (fun s : ℝ =>
        Vec3.euclidNorm (Vec3.sub (Vec3.add ⟨1, 0, 0⟩ (Vec3.smul s ⟨1, 2, 3⟩)) ⟨0, 0, 0⟩)
          + Vec3.euclidNorm
            (Vec3.sub (Vec3.add ⟨1, 0, 0⟩ (Vec3.smul s ⟨1, 2, 3⟩)) ⟨2, 0, 0⟩)) 0 < 0) := by
  have hA : 0 < Rt ⟨0, 0, 0⟩ ⟨1, 0, 0⟩ := by
    norm_num [ Rt, Vec3.absNorm, Vec3.sub, Real.sqrt_one]
  have hB : 0 < Rr ⟨2, 0, 0⟩ ⟨1, 0, 0⟩ := by
    norm_num [ Rr, Vec3.absNorm, Vec3.sub, Real.sqrt_one]
  exact ⟨hA, hB, by norm_num,
    doppler_sign_iff_closing ⟨1, 2, 3⟩ ⟨1, 0, 0⟩ ⟨0, 0, 0⟩ ⟨2, 0, 0⟩ 1 hA hB (by norm_num)⟩

end AutoParamCal
